import Mathlib

/-!
Verification of the voicevox_reader speech core: the interruptible audio
player (`app/player.py`) and the speech queue manager
(`app/queue_manager.py`), with the text preprocessing pipeline
(`app/text_cleaner.py`) that `enqueue` applies to incoming text.

Audio samples are modelled as integers: the code only ever copies decoded
samples or writes literal zeros, so the numeric type of a sample is
irrelevant to every property proved here.  A buffer row (one frame across
all channels) is collapsed to a single sample, since no property depends
on the channel structure of a frame.
-/

/-! ## Playback engine state (`AudioPlayer.__init__`, player.py lines 19-36) -/

structure PlayerState where
  token : Nat
  active : Bool
  data : Option (List Int)
  pos : Nat
  samplerate : Nat
  channels : Nat
  finished : Bool
  deriving Repr, DecidableEq

/-- Initial state set up by `AudioPlayer.__init__`: no buffer, token 0,
inactive, finished event set. -/
def initPlayer : PlayerState :=
  { token := 0, active := false, data := none, pos := 0,
    samplerate := 48000, channels := 1, finished := true }

/-- `AudioPlayer.play` (player.py lines 129-145), after the external
`soundfile` decode: mint a new token, install the buffer, reset position,
set active, clear the finished event. -/
def play (s : PlayerState) (buf : List Int) (sr ch : Nat) : PlayerState :=
  { s with token := s.token + 1, data := some buf,
           samplerate := sr, channels := ch,
           pos := 0, active := true, finished := false }

/-- `AudioPlayer.stop` (player.py lines 147-153): mint a new token, clear
the buffer and position, deactivate, set the finished event. -/
def stop (s : PlayerState) : PlayerState :=
  { s with token := s.token + 1, active := false, data := none,
           pos := 0, finished := true }

/-- `AudioPlayer.is_playing` (player.py lines 155-157). -/
def is_playing (s : PlayerState) : Bool := s.active

/-! ## The audio callback (player.py lines 67-117)

The callback acquires the lock up to three times per invocation:
once for the snapshot (lines 69-73), once for the stale-token check
(lines 83-90), and once for the final commit (lines 97-103 or 108-117).
`play`/`stop` may run between any two of those critical sections, so the
callback is modelled as a small-step machine: a snapshot step, a write
step (which emits the samples written to `outdata`), and a commit step. -/

structure CbSnap where
  token : Nat
  active : Bool
  data : Option (List Int)
  pos : Nat
  deriving Repr, DecidableEq

/-- The snapshot taken under the lock at lines 69-73. -/
def snapOf (s : PlayerState) : CbSnap :=
  { token := s.token, active := s.active, data := s.data, pos := s.pos }

/-- The reset performed when the callback finds its token stale or its
buffer exhausted: `_active = False; _data = None; _pos = 0;
_finished_event.set()` (lines 85-88, 100-103, 114-117). -/
def discardStale (s : PlayerState) : PlayerState :=
  { s with active := false, data := none, pos := 0, finished := true }

/-- `chunk = data[pos:pos+frames]` (lines 79-80), read from the snapshot. -/
def cbChunk (c : CbSnap) (frames : Nat) : List Int :=
  ((c.data.getD []).drop c.pos).take frames

/-- Where a pending callback invocation stands between its critical
sections. `commitPad` is the final-chunk branch awaiting lines 97-103;
`commitAdv` is the full-chunk branch awaiting lines 108-117. -/
inductive CbPhase where
  | started (c : CbSnap) (frames : Nat)
  | commitPad (c : CbSnap) (frames : Nat)
  | commitAdv (c : CbSnap) (frames : Nat)
  deriving Repr, DecidableEq

abbrev PlayerConfig := PlayerState × Option CbPhase

/-- Observable actions: the samples a callback writes to `outdata` are
carried on the `cbWrite` label. -/
inductive PLabel where
  | playL (buf : List Int) (sr ch : Nat)
  | stopL
  | cbBegin (frames : Nat)
  | cbWrite (out : List Int)
  | cbEnd
  deriving Repr, DecidableEq

/-- One interleaved step of the playback engine: a `play` or `stop` call
(allowed at any time on a producer thread), or one critical section of a
callback invocation on the audio thread. -/
inductive PStep : PlayerConfig → PLabel → PlayerConfig → Prop where
  | playStep (s : PlayerState) (p : Option CbPhase) (buf : List Int) (sr ch : Nat) :
      PStep (s, p) (.playL buf sr ch) (play s buf sr ch, p)
  | stopStep (s : PlayerState) (p : Option CbPhase) :
      PStep (s, p) .stopL (stop s, p)
  | cbBeginStep (s : PlayerState) (frames : Nat) :
      PStep (s, none) (.cbBegin frames) (s, some (.started (snapOf s) frames))
  | cbWriteIdle (s : PlayerState) (c : CbSnap) (frames : Nat) :
      c.active = false ∨ c.data = none →
      PStep (s, some (.started c frames))
            (.cbWrite (List.replicate frames 0)) (s, none)
  | cbWriteStale (s : PlayerState) (c : CbSnap) (frames : Nat) (buf : List Int) :
      c.active = true → c.data = some buf → c.token ≠ s.token →
      PStep (s, some (.started c frames))
            (.cbWrite (List.replicate frames 0)) (discardStale s, none)
  | cbWritePad (s : PlayerState) (c : CbSnap) (frames : Nat) (buf : List Int) :
      c.active = true → c.data = some buf → c.token = s.token →
      (cbChunk c frames).length < frames →
      PStep (s, some (.started c frames))
            (.cbWrite (cbChunk c frames ++
                       List.replicate (frames - (cbChunk c frames).length) 0))
            (s, some (.commitPad c frames))
  | cbWriteAdv (s : PlayerState) (c : CbSnap) (frames : Nat) (buf : List Int) :
      c.active = true → c.data = some buf → c.token = s.token →
      (cbChunk c frames).length = frames →
      PStep (s, some (.started c frames))
            (.cbWrite (cbChunk c frames)) (s, some (.commitAdv c frames))
  | cbEndPadSame (s : PlayerState) (c : CbSnap) (frames : Nat) :
      c.token = s.token →
      PStep (s, some (.commitPad c frames)) .cbEnd (discardStale s, none)
  | cbEndPadDiff (s : PlayerState) (c : CbSnap) (frames : Nat) :
      c.token ≠ s.token →
      PStep (s, some (.commitPad c frames)) .cbEnd (s, none)
  | cbEndAdvSame (s : PlayerState) (c : CbSnap) (frames : Nat) :
      c.token = s.token →
      PStep (s, some (.commitAdv c frames)) .cbEnd
            ({ s with pos := c.pos + frames }, none)
  | cbEndAdvDiff (s : PlayerState) (c : CbSnap) (frames : Nat) :
      c.token ≠ s.token →
      PStep (s, some (.commitAdv c frames)) .cbEnd (discardStale s, none)

/-- Configurations reachable from construction by any interleaving of
`play`, `stop` and callback critical sections. -/
inductive Reach : PlayerConfig → Prop where
  | init : Reach (initPlayer, none)
  | step {cfg : PlayerConfig} {l : PLabel} {cfg' : PlayerConfig} :
      Reach cfg → PStep cfg l cfg' → Reach cfg'

/-- The set of currently valid (active) tokens: the state's token when
active, nothing when idle. -/
def validTokens (s : PlayerState) : Finset Nat :=
  if s.active then {s.token} else ∅

/-! ## Playback engine invariants -/

def stateInv (s : PlayerState) : Prop :=
  s.finished = !s.active ∧ (s.active = false → s.data = none ∧ s.pos = 0)

/-- A pending callback's snapshot never carries a token newer than the
engine's, and if the tokens agree then no `play`/`stop` has intervened,
so the snapshot still agrees with the engine state. -/
def snapLe (c : CbSnap) (s : PlayerState) : Prop :=
  c.token ≤ s.token ∧
  (c.token = s.token → c.active = s.active ∧ c.data = s.data ∧ c.pos = s.pos)

def phaseInv (s : PlayerState) : Option CbPhase → Prop
  | none => True
  | some (.started c _) => snapLe c s
  | some (.commitPad c _) => snapLe c s ∧ c.active = true ∧ c.data.isSome
  | some (.commitAdv c _) => snapLe c s ∧ c.active = true ∧ c.data.isSome

def configInv (cfg : PlayerConfig) : Prop :=
  stateInv cfg.1 ∧ phaseInv cfg.1 cfg.2

/-! ## Text preprocessing (`app/text_cleaner.py`)

Each `re.sub` pass of `clean_control_codes` is translated as a
left-to-right scanner with the same leftmost, non-overlapping match
semantics.  Python's `\d` is modelled as the ASCII digits (the inputs of
interest contain no other Unicode digits), and `str.strip()` uses
Python's whitespace set. -/

/-- The characters `str.strip()` / `str.isspace()` treat as whitespace. -/
def isPySpace (c : Char) : Bool :=
  c = ' ' || c = '\t' || c = '\n' || c = '\x0b' || c = '\x0c' || c = '\r' ||
  (0x1c ≤ c.toNat && c.toNat ≤ 0x1f) || c.toNat = 0x85 || c.toNat = 0xa0 ||
  c.toNat = 0x1680 || (0x2000 ≤ c.toNat && c.toNat ≤ 0x200a) ||
  c.toNat = 0x2028 || c.toNat = 0x2029 || c.toNat = 0x202f ||
  c.toNat = 0x205f || c.toNat = 0x3000

/-- Python `s.strip()` on a character list. -/
def stripChars (l : List Char) : List Char :=
  ((l.dropWhile isPySpace).reverse.dropWhile isPySpace).reverse

/-- Python `text.strip()` as used by `enqueue` (queue_manager.py line 76). -/
def pyStrip (s : String) : String := String.mk (stripChars s.data)

/-- The backslash-like characters of the source's regex class. -/
def isBsLike (c : Char) : Bool :=
  c = '\\' || c = '¥' || c = '￥' || c = '＼'

/-- `text.replace("\r\n", "\n")` (text_cleaner.py line 55, first
replace), scanned with one pending-carriage-return flag. -/
def replaceCRLFAux : Bool → List Char → List Char
  | pend, [] => if pend then ['\r'] else []
  | pend, c :: rest =>
    if pend then
      if c = '\n' then '\n' :: replaceCRLFAux false rest
      else if c = '\r' then '\r' :: replaceCRLFAux true rest
      else '\r' :: c :: replaceCRLFAux false rest
    else
      if c = '\r' then replaceCRLFAux true rest
      else c :: replaceCRLFAux false rest

def replaceCRLF (l : List Char) : List Char := replaceCRLFAux false l

/-- `text.replace("\r", "\n")` (line 55, second replace). -/
def replaceCR (l : List Char) : List Char :=
  l.map (fun c => if c = '\r' then '\n' else c)

/-- `_normalize_backslash_variants` (lines 26-34): the three replaces of
single characters, fused into one map (the replaced characters are
pairwise distinct and none maps onto another). -/
def normalizeBackslashVariants (l : List Char) : List Char :=
  l.map (fun c => if c = '¥' || c = '￥' || c = '＼' then '\\' else c)

/-- First pass of `_convert_literal_newlines` (line 45):
`re.sub(r"\\\\n", "\n", text, flags=re.IGNORECASE)`, i.e. two backslash
characters followed by `n` or `N`.  The scanner state counts the pending
(not yet emitted) consecutive backslashes, capped at the two the pattern
can consume; surplus backslashes are emitted as the scan advances past
failed match positions. -/
def convDoubleBsNAux : Nat → List Char → List Char
  | pend, [] => List.replicate pend '\\'
  | 0, c :: rest =>
    if c = '\\' then convDoubleBsNAux 1 rest
    else c :: convDoubleBsNAux 0 rest
  | 1, c :: rest =>
    if c = '\\' then convDoubleBsNAux 2 rest
    else '\\' :: c :: convDoubleBsNAux 0 rest
  | _, c :: rest =>
    if c = 'n' ∨ c = 'N' then '\n' :: convDoubleBsNAux 0 rest
    else if c = '\\' then '\\' :: convDoubleBsNAux 2 rest
    else '\\' :: '\\' :: c :: convDoubleBsNAux 0 rest

def convDoubleBsN (l : List Char) : List Char := convDoubleBsNAux 0 l

/-- Second pass of `_convert_literal_newlines` (line 46):
`re.sub(r"\\n", "\n", text, flags=re.IGNORECASE)`, with one pending
backslash as scanner state. -/
def convSingleBsNAux : Bool → List Char → List Char
  | pend, [] => if pend then ['\\'] else []
  | false, c :: rest =>
    if c = '\\' then convSingleBsNAux true rest
    else c :: convSingleBsNAux false rest
  | true, c :: rest =>
    if c = 'n' ∨ c = 'N' then '\n' :: convSingleBsNAux false rest
    else if c = '\\' then '\\' :: convSingleBsNAux true rest
    else '\\' :: c :: convSingleBsNAux false rest

def convSingleBsN (l : List Char) : List Char := convSingleBsNAux false l

/-- One `re.sub(pat, "", text)` pass for a pattern of the form
`[\\¥￥＼]X` where `X` is drawn from `targets` (used for the
`_TEXTSIZE` pass and the single-character control codes
`\G \. \| \! \> \< \^ \$`, with `targets = [G, g]` for the
case-insensitive `\G`). -/
def rmSimpleCodeAux (targets : List Char) : Option Char → List Char → List Char
  | pend, [] => pend.toList
  | none, c :: rest =>
    if isBsLike c then rmSimpleCodeAux targets (some c) rest
    else c :: rmSimpleCodeAux targets none rest
  | some b, c :: rest =>
    if c ∈ targets then rmSimpleCodeAux targets none rest
    else if isBsLike c then b :: rmSimpleCodeAux targets (some c) rest
    else b :: c :: rmSimpleCodeAux targets none rest

def rmSimpleCode (targets : List Char) (l : List Char) : List Char :=
  rmSimpleCodeAux targets none l

/-- Scanner state for a `[\\¥￥＼]L\[\d+\]` pattern: nothing pending, a
pending backslash, a pending backslash-letter, or a pending
backslash-letter-bracket with the digits read so far. -/
inductive LCState where
  | normal
  | sawBs (bs : Char)
  | sawBsL (bs l : Char)
  | inBr (bs l : Char) (ds : List Char)
  deriving Repr, DecidableEq

/-- One character of the `\L[digits]` scanner.  Returns the characters
emitted (kept in the output) and the next state.  On a failed match the
pending characters are emitted literally; only the current character can
begin a new match, because a match must start with a backslash-like
character and the pending characters (letter, bracket, digits) are not
backslash-like. -/
def lcStep (lo hi : Char) (st : LCState) (c : Char) : List Char × LCState :=
  match st with
  | .normal =>
    if isBsLike c then ([], .sawBs c) else ([c], .normal)
  | .sawBs bs =>
    if c = lo ∨ c = hi then ([], .sawBsL bs c)
    else if isBsLike c then ([bs], .sawBs c)
    else ([bs, c], .normal)
  | .sawBsL bs l =>
    if c = '[' then ([], .inBr bs l [])
    else if isBsLike c then ([bs, l], .sawBs c)
    else ([bs, l, c], .normal)
  | .inBr bs l ds =>
    if c.isDigit then ([], .inBr bs l (ds ++ [c]))
    else if c = ']' ∧ ds ≠ [] then ([], .normal)
    else if isBsLike c then (bs :: l :: '[' :: ds, .sawBs c)
    else (bs :: l :: '[' :: (ds ++ [c]), .normal)

/-- Characters still pending when the input ends. -/
def lcFlush : LCState → List Char
  | .normal => []
  | .sawBs bs => [bs]
  | .sawBsL bs l => [bs, l]
  | .inBr bs l ds => bs :: l :: '[' :: ds

def rmLetterCodeAux (lo hi : Char) (st : LCState) : List Char → List Char
  | [] => lcFlush st
  | c :: rest =>
    let p := lcStep lo hi st c
    p.1 ++ rmLetterCodeAux lo hi p.2 rest

/-- `re.sub(r"[\\¥￥＼]L\[\d+\]", "", text, flags=re.IGNORECASE)` for the
letter `L` (`lo`/`hi` are its two cases), as used for the `\C \V \N \P
\I` control codes (text_cleaner.py lines 6-11, 67-68). -/
def rmLetterCode (lo hi : Char) (l : List Char) : List Char :=
  rmLetterCodeAux lo hi .normal l

/-- Scanner state for the safety pattern `\[\d+\](?=[:：])`
(text_cleaner.py line 72): nothing pending, inside `[digits`, or just
past `[digits]` waiting to peek at the lookahead character. -/
inductive BrState where
  | normal
  | inBr (ds : List Char)
  | sawClose (ds : List Char)
  deriving Repr, DecidableEq

def brStep (st : BrState) (c : Char) : List Char × BrState :=
  match st with
  | .normal =>
    if c = '[' then ([], .inBr []) else ([c], .normal)
  | .inBr ds =>
    if c.isDigit then ([], .inBr (ds ++ [c]))
    else if c = ']' ∧ ds ≠ [] then ([], .sawClose ds)
    else if c = '[' then ('[' :: ds, .inBr [])
    else ('[' :: (ds ++ [c]), .normal)
  | .sawClose ds =>
    if c = ':' ∨ c = '：' then ([c], .normal)
    else if c = '[' then ('[' :: (ds ++ [']']), .inBr [])
    else ('[' :: (ds ++ [']', c]), .normal)

def brFlush : BrState → List Char
  | .normal => []
  | .inBr ds => '[' :: ds
  | .sawClose ds => '[' :: (ds ++ [']'])

def rmBracketColonAux (st : BrState) : List Char → List Char
  | [] => brFlush st
  | c :: rest =>
    let p := brStep st c
    p.1 ++ rmBracketColonAux p.2 rest

/-- `re.sub(r"\[\d+\](?=[:：])", "", text)`: drop `[digits]` when the
next character is a half- or full-width colon (the lookahead is not
consumed). -/
def rmBracketBeforeColon (l : List Char) : List Char :=
  rmBracketColonAux .normal l

/-- Python `text.split("\n")` on a character list. -/
def splitNl : List Char → List (List Char)
  | [] => [[]]
  | c :: rest =>
    let ls := splitNl rest
    if c = '\n' then [] :: ls
    else (c :: ls.headD []) :: ls.tail

/-- `_SPACES.sub(" ", ln)` (text_cleaner.py lines 23, 88): collapse each
run of spaces and tabs to a single space. -/
def collapseSpacesAux : Bool → List Char → List Char
  | _, [] => []
  | inRun, c :: rest =>
    if c = ' ' ∨ c = '\t' then
      if inRun then collapseSpacesAux true rest
      else ' ' :: collapseSpacesAux true rest
    else c :: collapseSpacesAux false rest

def collapseSpaces (l : List Char) : List Char := collapseSpacesAux false l

/-- `clean_control_codes` (text_cleaner.py lines 50-83) on a character
list: newline and backslash normalization, literal-newline conversion,
text-size and control-code removal in the source's pattern order, the
bracket-before-colon cleanup, then per-line strip with leading and
trailing empty lines dropped. -/
def cleanControlChars (l : List Char) : List Char :=
  if l = [] then []
  else
    let t1 := replaceCR (replaceCRLF l)
    let t2 := normalizeBackslashVariants t1
    let t3 := convSingleBsN (convDoubleBsN t2)
    let t4 := rmSimpleCode ['\x7b', '\x7d'] t3
    let t5 := rmLetterCode 'C' 'c' t4
    let t6 := rmLetterCode 'V' 'v' t5
    let t7 := rmLetterCode 'N' 'n' t6
    let t8 := rmLetterCode 'P' 'p' t7
    let t9 := rmLetterCode 'I' 'i' t8
    let t10 := rmSimpleCode ['G', 'g'] t9
    let t11 := rmSimpleCode ['.'] t10
    let t12 := rmSimpleCode ['|'] t11
    let t13 := rmSimpleCode ['!'] t12
    let t14 := rmSimpleCode ['>'] t13
    let t15 := rmSimpleCode ['<'] t14
    let t16 := rmSimpleCode ['^'] t15
    let t17 := rmSimpleCode ['$'] t16
    let t18 := rmBracketBeforeColon t17
    let lines := (splitNl t18).map stripChars
    let lines := (((lines.dropWhile (· = [])).reverse.dropWhile (· = [])).reverse)
    List.intercalate ['\n'] lines

def clean_control_codes (s : String) : String :=
  String.mk (cleanControlChars s.data)

/-- `preprocess` (text_cleaner.py lines 86-89): clean, collapse and strip
each line, rejoin and strip the whole. -/
def preprocess (s : String) : String :=
  let cleaned := cleanControlChars s.data
  let ls := (splitNl cleaned).map (fun ln => stripChars (collapseSpaces ln))
  String.mk (stripChars (List.intercalate ['\n'] ls))


/-! ## Speech queue manager (`app/queue_manager.py`)

`voice_params` dictionaries are modelled as association lists with
unique keys in insertion order; values are modelled as integers, since
the code only stores and compares them.  The character profile lookup
`self.characters.resolve(name)` (config.py, an excluded collaborator)
and the network call `self.client.synthesize(...)` are passed in as
function parameters. -/

abbrev VoiceParams := List (String × Int)

structure SpeakItem where
  name : String
  text : String
  style_id : Int
  voice_params : Option VoiceParams := none
  no_dedup : Bool := false
  deriving Repr, DecidableEq

/-- Insertion into the ordered-pairs form of a sorted list. -/
def insertPair (x : String × Int) : VoiceParams → VoiceParams
  | [] => [x]
  | y :: ys => if x.1 ≤ y.1 then x :: y :: ys else y :: insertPair x ys

/-- Python `sorted(d.items())`: ascending by key (keys are unique in a
dict, so key order determines tuple order). -/
def sortPairs : VoiceParams → VoiceParams
  | [] => []
  | x :: xs => insertPair x (sortPairs xs)

abbrev DedupKey := String × Int × VoiceParams

/-- `SpeakItem.dedup_key` (queue_manager.py lines 23-25):
`(text, style_id, tuple(sorted((voice_params or \x7b\x7d).items())))`. -/
def dedup_key (it : SpeakItem) : DedupKey :=
  (it.text, it.style_id, sortPairs (it.voice_params.getD []))

/-- `d[k] = v` on a Python dict: replace in place if the key exists,
append otherwise. -/
def dictSet (d : VoiceParams) (k : String) (v : Int) : VoiceParams :=
  if d.any (fun p => p.1 = k) then
    d.map (fun p => if p.1 = k then (k, v) else p)
  else d ++ [(k, v)]

/-- `base.update(overrides)` on Python dicts. -/
def dictUpdate (d overrides : VoiceParams) : VoiceParams :=
  overrides.foldl (fun acc kv => dictSet acc kv.1 kv.2) d

/-- Manager state: the bounded FIFO `self.q` (front of the list is the
next item handed to the worker), its capacity, the dedup flag, the last
spoken key, the stop flag, and the owned `AudioPlayer`. -/
structure QMState where
  q : List SpeakItem
  maxSize : Nat
  dedupEnabled : Bool
  lastSpokenKey : Option DedupKey := none
  stopFlag : Bool := false
  player : PlayerState
  deriving Repr, DecidableEq

/-- `SpeechQueueManager.__init__` (queue_manager.py lines 29-51); the
source defaults are `dedup_enabled=True` and `max_queue_size=100`. -/
def initQM (maxSize : Nat) (dedupEnabled : Bool) : QMState :=
  { q := [], maxSize := maxSize, dedupEnabled := dedupEnabled,
    lastSpokenKey := none, stopFlag := false, player := initPlayer }

/-- Arguments of `SpeechQueueManager.enqueue` with the source defaults. -/
structure EnqArgs where
  text : String
  name : String := "default"
  style_id : Option Int := none
  voice_params : Option VoiceParams := none
  no_dedup : Bool := false
  deriving Repr, DecidableEq

/-- The item `enqueue` constructs (queue_manager.py lines 83-98): resolve
the profile, apply the style override, copy the resolved params and merge
the caller overrides (`if voice_params:` skips the merge for `None` and
for an empty dict), and carry the preprocessed text. -/
def mkSpeakItem (resolve : String → Int × VoiceParams) (a : EnqArgs) : SpeakItem :=
  let rp := resolve a.name
  let final_style_id := a.style_id.getD rp.1
  let final_params :=
    match a.voice_params with
    | none => rp.2
    | some vp => if vp = [] then rp.2 else dictUpdate rp.2 vp
  { name := a.name, text := preprocess a.text, style_id := final_style_id,
    voice_params := some final_params, no_dedup := a.no_dedup }

/-- `SpeechQueueManager.enqueue` (queue_manager.py lines 68-104): reject
empty or whitespace-only text, reject text whose preprocessed form is
empty, then `put_nowait`, which raises `queue.Full` exactly when
`0 < maxsize ≤ qsize`. -/
def enqueue (resolve : String → Int × VoiceParams) (a : EnqArgs) (s : QMState) :
    Bool × QMState :=
  if a.text = "" ∨ pyStrip a.text = "" then (false, s)
  else if preprocess a.text = "" then (false, s)
  else if 0 < s.maxSize ∧ s.maxSize ≤ s.q.length then (false, s)
  else (true, { s with q := s.q ++ [mkSpeakItem resolve a] })

/-- `SpeechQueueManager.stop_current` (queue_manager.py lines 106-114):
`player.stop()`, then a 1 ms pulse of `_stop_flag` (`set()`, 1 ms sleep,
`clear()`); once the call returns the flag is clear again. -/
def stop_current (s : QMState) : QMState :=
  let s1 := { s with player := stop s.player }
  let s2 := { s1 with stopFlag := true }
  { s2 with stopFlag := false }

/-- `SpeechQueueManager.clear_queue` (lines 116-121): drain with
`get_nowait` until `queue.Empty`. -/
def clear_queue (s : QMState) : QMState := { s with q := [] }

/-- `SpeechQueueManager.enqueue_interrupt` (lines 123-129):
`stop_current(); clear_queue(); enqueue(...)`. -/
def enqueue_interrupt (resolve : String → Int × VoiceParams) (a : EnqArgs)
    (s : QMState) : Bool × QMState :=
  enqueue resolve a (clear_queue (stop_current s))

/-- Observable actions of one worker-loop iteration. -/
inductive WEvent where
  | synthCalled (item : SpeakItem)
  | played (item : SpeakItem)
  | dedupSkipped (item : SpeakItem)
  | errorLogged
  deriving Repr, DecidableEq

/-- One iteration of `SpeechQueueManager._worker_loop`
(queue_manager.py lines 133-163) on an already dequeued `item`.

`synth` stands for the network call `self.client.synthesize(...)`;
`none` models the call raising, which the `except` clause catches and
logs (lines 162-163).  On success the decoded `(buffer, samplerate,
channels)` is handed to `player.play`.

The completion poll (lines 153-157) only waits: it breaks when
`is_playing()` turns false or a set `_stop_flag` is observed, and has no
effect on the manager state; the player state meanwhile advances on the
audio-callback thread, modelled separately by `PStep`.  The decision at
line 159 re-reads the flag, and `stopFlagAtCheck` is the value
`self._stop_flag.is_set()` returns at that moment. -/
def workerIter (synth : SpeakItem → Option (List Int × Nat × Nat))
    (stopFlagAtCheck : Bool) (item : SpeakItem) (s : QMState) :
    QMState × List WEvent :=
  let key := dedup_key item
  if item.no_dedup = false ∧ s.dedupEnabled = true ∧ s.lastSpokenKey = some key then
    (s, [.dedupSkipped item])
  else
    match synth item with
    | none => (s, [.synthCalled item, .errorLogged])
    | some (buf, sr, ch) =>
      let s1 := { s with player := play s.player buf sr ch }
      let s2 := if stopFlagAtCheck = false
                then { s1 with lastSpokenKey := some key } else s1
      (s2, [.synthCalled item, .played item])

/-! ## Concrete instances used by the witnesses -/


def demoResolve : String → Int × VoiceParams := fun _ => (2, [("speedScale", 1)])

def demoSynth : SpeakItem → Option (List Int × Nat × Nat) := fun _ => some ([1, 2], 8000, 1)

def demoSynthFail : SpeakItem → Option (List Int × Nat × Nat) := fun _ => none

def demoItem : SpeakItem :=
  { name := "a", text := "a", style_id := 1, voice_params := some [], no_dedup := false }

def demoQM : QMState := initQM 100 true

def demoFullQM : QMState :=
  { q := [demoItem, demoItem], maxSize := 2, dedupEnabled := true,
    lastSpokenKey := none, stopFlag := false, player := initPlayer }

def demoMidPlayback : QMState := { demoQM with player := play initPlayer [1, 2] 8000 1 }

/-- Iterated `enqueue` with no consuming worker. -/
def enqueueAll (resolve : String → Int × VoiceParams) (calls : List EnqArgs)
    (s : QMState) : QMState :=
  calls.foldl (fun st a => (enqueue resolve a st).2) s

/-! ## Invariant preservation and the claims -/

theorem stateInv_discardStale (s : PlayerState) : stateInv (discardStale s) := by
  simp [stateInv, discardStale]

theorem pstep_inv {cfg : PlayerConfig} {l : PLabel} {cfg' : PlayerConfig}
    (h : PStep cfg l cfg') (hinv : configInv cfg) : configInv cfg' := by
  obtain ⟨hs, hp⟩ := hinv
  cases h with
  | playStep s p buf sr ch =>
    dsimp only at hs hp
    refine ⟨by simp [stateInv, play], ?_⟩
    cases p with
    | none => trivial
    | some ph =>
      cases ph with
      | started c f =>
        obtain ⟨h1, _⟩ := hp
        exact ⟨by simp [play]; omega, by simp [play]; omega⟩
      | commitPad c f =>
        obtain ⟨⟨h1, _⟩, h2, h3⟩ := hp
        exact ⟨⟨by simp [play]; omega, by simp [play]; omega⟩, h2, h3⟩
      | commitAdv c f =>
        obtain ⟨⟨h1, _⟩, h2, h3⟩ := hp
        exact ⟨⟨by simp [play]; omega, by simp [play]; omega⟩, h2, h3⟩
  | stopStep s p =>
    dsimp only at hs hp
    refine ⟨by simp [stateInv, stop], ?_⟩
    cases p with
    | none => trivial
    | some ph =>
      cases ph with
      | started c f =>
        obtain ⟨h1, _⟩ := hp
        exact ⟨by simp [stop]; omega, by simp [stop]; omega⟩
      | commitPad c f =>
        obtain ⟨⟨h1, _⟩, h2, h3⟩ := hp
        exact ⟨⟨by simp [stop]; omega, by simp [stop]; omega⟩, h2, h3⟩
      | commitAdv c f =>
        obtain ⟨⟨h1, _⟩, h2, h3⟩ := hp
        exact ⟨⟨by simp [stop]; omega, by simp [stop]; omega⟩, h2, h3⟩
  | cbBeginStep s frames =>
    exact ⟨hs, le_refl _, fun _ => ⟨rfl, rfl, rfl⟩⟩
  | cbWriteIdle s c frames hid =>
    exact ⟨hs, trivial⟩
  | cbWriteStale s c frames buf ha hd ht =>
    exact ⟨stateInv_discardStale s, trivial⟩
  | cbWritePad s c frames buf ha hd ht hlen =>
    exact ⟨hs, hp, ha, by simp [hd]⟩
  | cbWriteAdv s c frames buf ha hd ht hlen =>
    exact ⟨hs, hp, ha, by simp [hd]⟩
  | cbEndPadSame s c frames ht =>
    exact ⟨stateInv_discardStale s, trivial⟩
  | cbEndPadDiff s c frames ht =>
    exact ⟨hs, trivial⟩
  | cbEndAdvSame s c frames ht =>
    obtain ⟨⟨h1, h2⟩, hact, _⟩ := hp
    obtain ⟨hca, _, _⟩ := h2 ht
    obtain ⟨hfin, _⟩ := hs
    constructor
    · constructor
      · simpa using hfin
      · intro hfalse
        rw [← hca, hact] at hfalse
        exact absurd hfalse (by simp)
    · trivial
  | cbEndAdvDiff s c frames ht =>
    exact ⟨stateInv_discardStale s, trivial⟩

theorem reach_inv {cfg : PlayerConfig} (h : Reach cfg) : configInv cfg := by
  induction h with
  | init => exact ⟨⟨rfl, fun _ => ⟨rfl, rfl⟩⟩, trivial⟩
  | step _ hstep ih => exact pstep_inv hstep ih


/-- C9: In every AudioPlayer state reachable from construction via any
interleaving of play, stop, and callback steps, the finished event is set
if and only if `_active` is false, and whenever `_active` is false the
buffer reference `_data` is `None` and the position `_pos` is 0; hence
`is_playing()` returns false exactly when `wait()` would return
immediately (the finished event is set). -/
theorem C9_finished_iff_inactive (cfg : PlayerConfig) (h : Reach cfg) :
    (cfg.1.finished = true ↔ cfg.1.active = false) ∧
    (cfg.1.active = false → cfg.1.data = none ∧ cfg.1.pos = 0) ∧
    (is_playing cfg.1 = false ↔ cfg.1.finished = true) := by
  obtain ⟨⟨hfin, hdata⟩, _⟩ := reach_inv h
  refine ⟨?_, hdata, ?_⟩
  · rw [hfin]; cases cfg.1.active <;> simp
  · rw [hfin, is_playing]; cases cfg.1.active <;> simp

theorem C9_witness :
    (((play initPlayer [1] 8000 1).finished = true ↔
        (play initPlayer [1] 8000 1).active = false) ∧
     ((play initPlayer [1] 8000 1).active = false →
        (play initPlayer [1] 8000 1).data = none ∧
        (play initPlayer [1] 8000 1).pos = 0) ∧
     (is_playing (play initPlayer [1] 8000 1) = false ↔
        (play initPlayer [1] 8000 1).finished = true)) :=
  C9_finished_iff_inactive (play initPlayer [1] 8000 1, none)
    (Reach.step Reach.init (PStep.playStep initPlayer none [1] 8000 1))

/-- C1: For every sequence of AudioPlayer play and stop calls, each call
mints a token strictly greater than every previously minted token (each
call increments the token by one and no step ever decreases it), at most
one token is ever the valid (active) one at any instant, and any callback
activity tagged with a token older than the current token discards itself
(sets active to false, drops the buffer, resets position, sets the
finished event) while writing only silence; once the player is inactive,
a fresh callback writes silence and changes nothing. -/
theorem C1_token_monotonicity :
    (∀ (s : PlayerState) (buf : List Int) (sr ch : Nat),
        (play s buf sr ch).token = s.token + 1) ∧
    (∀ s : PlayerState, (stop s).token = s.token + 1) ∧
    (∀ (cfg : PlayerConfig) (l : PLabel) (cfg' : PlayerConfig),
        PStep cfg l cfg' → cfg.1.token ≤ cfg'.1.token) ∧
    (∀ s : PlayerState, (validTokens s).card ≤ 1) ∧
    (∀ (s : PlayerState) (c : CbSnap) (frames : Nat) (out : List Int)
        (cfg' : PlayerConfig),
        c.active = true → c.data ≠ none → c.token < s.token →
        PStep (s, some (.started c frames)) (.cbWrite out) cfg' →
        out = List.replicate frames 0 ∧ cfg'.1.active = false ∧
        cfg'.1.data = none ∧ cfg'.1.pos = 0 ∧ cfg'.1.finished = true) ∧
    (∀ (s : PlayerState) (frames : Nat) (out : List Int) (cfg' : PlayerConfig),
        s.active = false →
        PStep (s, some (.started (snapOf s) frames)) (.cbWrite out) cfg' →
        out = List.replicate frames 0 ∧ cfg' = (s, none)) := by
  refine ⟨fun s buf sr ch => rfl, fun s => rfl, ?_, ?_, ?_, ?_⟩
  · intro cfg l cfg' h
    cases h <;> simp [play, stop, discardStale]
  · intro s
    unfold validTokens
    split <;> simp
  · intro s c frames out cfg' ha hd ht h
    cases h with
    | cbWriteIdle _ _ _ hid =>
      rcases hid with h1 | h1
      · rw [ha] at h1; exact absurd h1 (by simp)
      · exact absurd h1 hd
    | cbWriteStale _ _ _ buf _ _ _ =>
      exact ⟨rfl, rfl, rfl, rfl, rfl⟩
    | cbWritePad _ _ _ buf _ _ htok _ =>
      omega
    | cbWriteAdv _ _ _ buf _ _ htok _ =>
      omega
  · intro s frames out cfg' hina h
    cases h with
    | cbWriteIdle _ _ _ hid => exact ⟨rfl, rfl⟩
    | cbWriteStale _ _ _ buf ha _ _ =>
      rw [snapOf] at ha
      simp only at ha
      rw [hina] at ha
      exact absurd ha (by simp)
    | cbWritePad _ _ _ buf ha _ _ _ =>
      rw [snapOf] at ha
      simp only at ha
      rw [hina] at ha
      exact absurd ha (by simp)
    | cbWriteAdv _ _ _ buf ha _ _ _ =>
      rw [snapOf] at ha
      simp only at ha
      rw [hina] at ha
      exact absurd ha (by simp)

theorem C1_witness :
    (play initPlayer [5, 6] 8000 1).token = initPlayer.token + 1 ∧
    (stop initPlayer).token = initPlayer.token + 1 ∧
    initPlayer.token ≤ (stop initPlayer).token ∧
    (validTokens initPlayer).card ≤ 1 ∧
    (List.replicate 4 (0 : Int) = List.replicate 4 0 ∧
      (discardStale (stop (play initPlayer [5, 6] 8000 1))).active = false ∧
      (discardStale (stop (play initPlayer [5, 6] 8000 1))).data = none ∧
      (discardStale (stop (play initPlayer [5, 6] 8000 1))).pos = 0 ∧
      (discardStale (stop (play initPlayer [5, 6] 8000 1))).finished = true) ∧
    (List.replicate 3 (0 : Int) = List.replicate 3 0 ∧
      ((initPlayer, none) : PlayerConfig) = (initPlayer, none)) := by
  refine ⟨C1_token_monotonicity.1 initPlayer [5, 6] 8000 1,
          C1_token_monotonicity.2.1 initPlayer, ?_, ?_, ?_, ?_⟩
  · exact C1_token_monotonicity.2.2.1 (initPlayer, none) .stopL (stop initPlayer, none)
      (PStep.stopStep initPlayer none)
  · exact C1_token_monotonicity.2.2.2.1 initPlayer
  · exact C1_token_monotonicity.2.2.2.2.1
      (stop (play initPlayer [5, 6] 8000 1))
      (snapOf (play initPlayer [5, 6] 8000 1)) 4 (List.replicate 4 0)
      (discardStale (stop (play initPlayer [5, 6] 8000 1)), none)
      rfl (by decide) (by decide)
      (PStep.cbWriteStale _ _ 4 [5, 6] rfl rfl (by decide))
  · exact C1_token_monotonicity.2.2.2.2.2 initPlayer 3 (List.replicate 3 0)
      (initPlayer, none) rfl
      (PStep.cbWriteIdle initPlayer (snapOf initPlayer) 3 (Or.inl rfl))

/-- C6: For every invocation of the audio callback with a requested frame
count, the write step emits exactly that many samples: always `frames`
samples in total, all zeros when the snapshot is idle (inactive or no
buffer) or stale (token mismatch at the check), and otherwise the
snapshot buffer's chunk padded with zero-valued silence for every
remaining sample (the padding being empty on a full chunk). -/
theorem C6_callback_fills_every_frame
    (s : PlayerState) (c : CbSnap) (frames : Nat) (out : List Int)
    (cfg' : PlayerConfig)
    (h : PStep (s, some (.started c frames)) (.cbWrite out) cfg') :
    out.length = frames ∧
    (c.active = false ∨ c.data = none → out = List.replicate frames 0) ∧
    (c.token ≠ s.token → out = List.replicate frames 0) ∧
    (c.active = true → c.token = s.token →
      out = cbChunk c frames ++
            List.replicate (frames - (cbChunk c frames).length) 0) := by
  cases h with
  | cbWriteIdle _ _ _ hid =>
    refine ⟨by simp, fun _ => rfl, fun _ => rfl, ?_⟩
    intro ha htok
    rcases hid with h1 | h1
    · rw [ha] at h1; exact absurd h1 (by simp)
    · simp [cbChunk, h1]
  | cbWriteStale _ _ _ buf ha hd htok =>
    exact ⟨by simp, fun _ => rfl, fun _ => rfl, fun _ h => absurd h htok⟩
  | cbWritePad _ _ _ buf ha hd htok hlen =>
    refine ⟨?_, ?_, fun h => absurd htok h, fun _ _ => rfl⟩
    · simp only [List.length_append, List.length_replicate]
      omega
    · intro h1
      rcases h1 with h1 | h1
      · rw [ha] at h1; exact absurd h1 (by simp)
      · rw [h1] at hd; exact absurd hd (by simp)
  | cbWriteAdv _ _ _ buf ha hd htok hlen =>
    refine ⟨hlen, ?_, fun h => absurd htok h, ?_⟩
    · intro h1
      rcases h1 with h1 | h1
      · rw [ha] at h1; exact absurd h1 (by simp)
      · rw [h1] at hd; exact absurd hd (by simp)
    · intro _ _
      rw [hlen]
      simp

theorem C6_witness :
    (cbChunk (snapOf (play initPlayer [5, 6, 7, 8] 8000 1)) 2).length = 2 ∧
    ((snapOf (play initPlayer [5, 6, 7, 8] 8000 1)).active = false ∨
        (snapOf (play initPlayer [5, 6, 7, 8] 8000 1)).data = none →
      cbChunk (snapOf (play initPlayer [5, 6, 7, 8] 8000 1)) 2 =
        List.replicate 2 0) ∧
    ((snapOf (play initPlayer [5, 6, 7, 8] 8000 1)).token ≠
        (play initPlayer [5, 6, 7, 8] 8000 1).token →
      cbChunk (snapOf (play initPlayer [5, 6, 7, 8] 8000 1)) 2 =
        List.replicate 2 0) ∧
    ((snapOf (play initPlayer [5, 6, 7, 8] 8000 1)).active = true →
      (snapOf (play initPlayer [5, 6, 7, 8] 8000 1)).token =
        (play initPlayer [5, 6, 7, 8] 8000 1).token →
      cbChunk (snapOf (play initPlayer [5, 6, 7, 8] 8000 1)) 2 =
        cbChunk (snapOf (play initPlayer [5, 6, 7, 8] 8000 1)) 2 ++
          List.replicate
            (2 - (cbChunk (snapOf (play initPlayer [5, 6, 7, 8] 8000 1)) 2).length)
            0) :=
  C6_callback_fills_every_frame (play initPlayer [5, 6, 7, 8] 8000 1)
    (snapOf (play initPlayer [5, 6, 7, 8] 8000 1)) 2
    (cbChunk (snapOf (play initPlayer [5, 6, 7, 8] 8000 1)) 2)
    (play initPlayer [5, 6, 7, 8] 8000 1,
      some (.commitAdv (snapOf (play initPlayer [5, 6, 7, 8] 8000 1)) 2))
    (PStep.cbWriteAdv _ _ 2 [5, 6, 7, 8] rfl rfl rfl (by decide))


/-! ## Claims about the queue manager -/

/-- C2: For every call to enqueue_interrupt, the operation (as the
sequential composition the method performs) stops the Playback Engine,
drains all pending queued items, and then performs enqueue; immediately
afterwards the pending queue contains at most the new item, and only the
new item will play next (every queued item is the new one; the queue is
exactly the new item when the enqueue succeeded, and empty otherwise). -/
theorem C2_enqueue_interrupt (resolve : String → Int × VoiceParams)
    (a : EnqArgs) (s : QMState) :
    (enqueue_interrupt resolve a s).2.player = stop s.player ∧
    (enqueue_interrupt resolve a s).2.player.active = false ∧
    (enqueue_interrupt resolve a s).2.q.length ≤ 1 ∧
    (∀ it ∈ (enqueue_interrupt resolve a s).2.q, it = mkSpeakItem resolve a) ∧
    ((enqueue_interrupt resolve a s).1 = true →
      (enqueue_interrupt resolve a s).2.q = [mkSpeakItem resolve a]) ∧
    ((enqueue_interrupt resolve a s).1 = false →
      (enqueue_interrupt resolve a s).2.q = []) := by
  unfold enqueue_interrupt enqueue clear_queue stop_current
  split_ifs <;> simp [stop]

theorem C2_witness :
    (enqueue_interrupt demoResolve { text := "hi" } demoMidPlayback).2.player =
      stop demoMidPlayback.player ∧
    (enqueue_interrupt demoResolve { text := "hi" } demoMidPlayback).2.player.active
      = false ∧
    (enqueue_interrupt demoResolve { text := "hi" } demoMidPlayback).2.q.length ≤ 1 ∧
    (∀ it ∈ (enqueue_interrupt demoResolve { text := "hi" } demoMidPlayback).2.q,
      it = mkSpeakItem demoResolve { text := "hi" }) ∧
    ((enqueue_interrupt demoResolve { text := "hi" } demoMidPlayback).1 = true →
      (enqueue_interrupt demoResolve { text := "hi" } demoMidPlayback).2.q =
        [mkSpeakItem demoResolve { text := "hi" }]) ∧
    ((enqueue_interrupt demoResolve { text := "hi" } demoMidPlayback).1 = false →
      (enqueue_interrupt demoResolve { text := "hi" } demoMidPlayback).2.q = []) :=
  C2_enqueue_interrupt demoResolve { text := "hi" } demoMidPlayback

/-- A worker iteration whose dedup condition holds skips the item:
no synthesis, no playback, no state change (queue_manager.py
lines 137-140). -/
theorem workerIter_skip (synth : SpeakItem → Option (List Int × Nat × Nat))
    (flag : Bool) (item : SpeakItem) (s : QMState)
    (h : item.no_dedup = false ∧ s.dedupEnabled = true ∧
         s.lastSpokenKey = some (dedup_key item)) :
    workerIter synth flag item s = (s, [WEvent.dedupSkipped item]) := by
  simp only [workerIter]
  rw [if_pos h]

/-- C3: For every pair of consecutive dequeued items with equal DedupKeys
where the second has no_dedup=false and the first completed playback
without interruption (the stop flag was clear at the completion check, so
the last spoken key was recorded), the worker loop skips the second item
entirely: its iteration leaves the state unchanged and records only a
dedup skip, so the Synthesis Client is not called and nothing is played.
Stated for a manager with dedup enabled (the constructor default). -/
theorem C3_dedup_skip
    (synth1 synth2 : SpeakItem → Option (List Int × Nat × Nat))
    (flag2 : Bool) (item1 item2 : SpeakItem) (s : QMState)
    (wav : List Int × Nat × Nat)
    (hded : s.dedupEnabled = true)
    (hkey : dedup_key item1 = dedup_key item2)
    (hnd : item2.no_dedup = false)
    (hsynth : synth1 item1 = some wav)
    (hnoskip : ¬(item1.no_dedup = false ∧ s.dedupEnabled = true ∧
                 s.lastSpokenKey = some (dedup_key item1))) :
    workerIter synth2 flag2 item2 (workerIter synth1 false item1 s).1 =
      ((workerIter synth1 false item1 s).1, [WEvent.dedupSkipped item2]) ∧
    WEvent.synthCalled item2 ∉
      (workerIter synth2 flag2 item2 (workerIter synth1 false item1 s).1).2 ∧
    WEvent.played item2 ∉
      (workerIter synth2 flag2 item2 (workerIter synth1 false item1 s).1).2 := by
  obtain ⟨buf, sr, ch⟩ := wav
  have h1 : (workerIter synth1 false item1 s).1 =
      { s with player := play s.player buf sr ch,
               lastSpokenKey := some (dedup_key item1) } := by
    simp [workerIter, if_neg hnoskip, hsynth]
  rw [h1, workerIter_skip synth2 flag2 item2
    { s with player := play s.player buf sr ch,
             lastSpokenKey := some (dedup_key item1) }
    ⟨hnd, hded, by rw [hkey]⟩]
  exact ⟨rfl, by simp, by simp⟩

theorem C3_witness :
    workerIter demoSynth true demoItem (workerIter demoSynth false demoItem demoQM).1 =
      ((workerIter demoSynth false demoItem demoQM).1,
        [WEvent.dedupSkipped demoItem]) :=
  (C3_dedup_skip demoSynth demoSynth true demoItem demoItem demoQM ([1, 2], 8000, 1)
    rfl rfl rfl rfl (by decide)).1

/-- C4: the claim requires an interrupted playback (stop requested during
the completion poll) to leave the last spoken key unchanged.  The code
violates this: `stop_current` pulses `_stop_flag` for only 1 ms (set,
sleep(0.001), clear) while the worker's poll sleeps 10 ms per round, so
the pulse can end before the worker's final `_stop_flag.is_set()` check
at line 159.  This theorem evaluates the model at that failing schedule:
after `stop_current` returns, the flag reads false and playback has been
interrupted (`player.active = false`), yet a worker whose final check
reads that cleared flag records the key.  The last conjunct shows the
intended path (flag still set at the check) does leave the key unchanged. -/
theorem C4_interrupted_key_update_bug :
    (stop_current demoMidPlayback).stopFlag = false ∧
    (stop_current demoMidPlayback).player.active = false ∧
    demoQM.lastSpokenKey = none ∧
    (workerIter demoSynth (stop_current demoMidPlayback).stopFlag demoItem
        demoQM).1.lastSpokenKey = some (dedup_key demoItem) ∧
    (workerIter demoSynth true demoItem demoQM).1.lastSpokenKey = none := by
  decide


theorem enqueue_capacity_step (resolve : String → Int × VoiceParams)
    (a : EnqArgs) (s : QMState) (h : s.q.length ≤ s.maxSize)
    (hmax : 0 < s.maxSize) :
    (enqueue resolve a s).2.q.length ≤ (enqueue resolve a s).2.maxSize ∧
    (enqueue resolve a s).2.maxSize = s.maxSize := by
  unfold enqueue
  split_ifs with h1 h2 h3
  · exact ⟨h, rfl⟩
  · exact ⟨h, rfl⟩
  · exact ⟨h, rfl⟩
  · refine ⟨?_, rfl⟩
    simp only [List.length_append, List.length_cons, List.length_nil]
    omega

theorem enqueueAll_capacity (resolve : String → Int × VoiceParams)
    (calls : List EnqArgs) :
    ∀ s : QMState, 0 < s.maxSize → s.q.length ≤ s.maxSize →
      (enqueueAll resolve calls s).q.length ≤ s.maxSize := by
  induction calls with
  | nil => intro s _ h; simpa [enqueueAll] using h
  | cons a rest ih =>
    intro s hmax h
    have step := enqueue_capacity_step resolve a s h hmax
    have hstep := ih (enqueue resolve a s).2 (step.2 ▸ hmax) (step.2 ▸ step.1)
    rw [step.2] at hstep
    simpa [enqueueAll, List.foldl_cons] using hstep

/-- C5: For every sequence of enqueue calls with no consuming worker (and
a positive capacity, as configured), each call with accepted text made
while the queue holds fewer than max_queue_size items returns true and
grows the queue by one; every call made while the queue holds
max_queue_size (or more) items returns false and leaves the state
untouched (the non-blocking `put_nowait` rejection); and the queue length
never exceeds max_queue_size.  Text that fails the emptiness checks is
rejected independently of capacity (claims C7 and C10). -/
theorem C5_capacity (resolve : String → Int × VoiceParams) (s : QMState)
    (hmax : 0 < s.maxSize) :
    (∀ a : EnqArgs, s.q.length < s.maxSize → a.text ≠ "" →
      pyStrip a.text ≠ "" → preprocess a.text ≠ "" →
      (enqueue resolve a s).1 = true ∧
      (enqueue resolve a s).2.q.length = s.q.length + 1) ∧
    (∀ a : EnqArgs, s.maxSize ≤ s.q.length →
      (enqueue resolve a s).1 = false ∧ (enqueue resolve a s).2 = s) ∧
    (∀ calls : List EnqArgs, s.q.length ≤ s.maxSize →
      (enqueueAll resolve calls s).q.length ≤ s.maxSize) := by
  refine ⟨?_, ?_, fun calls h => enqueueAll_capacity resolve calls s hmax h⟩
  · intro a hlen ht hs hp
    unfold enqueue
    rw [if_neg (by push_neg; exact ⟨ht, hs⟩), if_neg hp, if_neg (by omega)]
    simp
  · intro a hfull
    unfold enqueue
    split_ifs with h1 h2 h3
    · exact ⟨rfl, rfl⟩
    · exact ⟨rfl, rfl⟩
    · exact ⟨rfl, rfl⟩
    · exact absurd ⟨hmax, hfull⟩ h3

theorem C5_witness :
    ((enqueue demoResolve { text := "hi" } (initQM 2 true)).1 = true ∧
     (enqueue demoResolve { text := "hi" } (initQM 2 true)).2.q.length =
       (initQM 2 true).q.length + 1) ∧
    ((enqueue demoResolve { text := "hi" } demoFullQM).1 = false ∧
     (enqueue demoResolve { text := "hi" } demoFullQM).2 = demoFullQM) ∧
    (enqueueAll demoResolve [{ text := "x" }, { text := "y" }, { text := "z" }]
        (initQM 2 true)).q.length ≤ (initQM 2 true).maxSize :=
  ⟨(C5_capacity demoResolve (initQM 2 true) (by decide)).1 { text := "hi" }
      (by decide) (by decide) (by decide) (by decide),
   (C5_capacity demoResolve demoFullQM (by decide)).2.1 { text := "hi" } (by decide),
   (C5_capacity demoResolve (initQM 2 true) (by decide)).2.2
      [{ text := "x" }, { text := "y" }, { text := "z" }] (by decide)⟩

theorem stripChars_of_all_space (l : List Char)
    (h : ∀ c ∈ l, isPySpace c = true) : stripChars l = [] := by
  unfold stripChars
  have h1 : l.dropWhile isPySpace = [] := List.dropWhile_eq_nil_iff.mpr h
  simp [h1]

theorem stripChars_ne_nil (l : List Char) (c : Char) (hc : c ∈ l)
    (hcs : isPySpace c = false) : stripChars l ≠ [] := by
  intro hnil
  unfold stripChars at hnil
  rw [List.reverse_eq_nil_iff, List.dropWhile_eq_nil_iff] at hnil
  have hcd : c ∈ l.dropWhile isPySpace := by
    have hsplit := List.takeWhile_append_dropWhile (p := isPySpace) (l := l)
    rcases List.mem_append.mp (hsplit ▸ hc) with h1 | h1
    · exact absurd (List.mem_takeWhile_imp h1) (by simp [hcs])
    · exact h1
  have := hnil c (List.mem_reverse.mpr hcd)
  simp [hcs] at this

/-- C7: For every text argument that is empty or consists only of
whitespace characters, enqueue returns false and the manager state
(in particular the queue and its size) is unchanged. -/
theorem C7_reject_blank_text (resolve : String → Int × VoiceParams)
    (a : EnqArgs) (s : QMState) (h : ∀ c ∈ a.text.data, isPySpace c = true) :
    enqueue resolve a s = (false, s) := by
  unfold enqueue
  have hstrip : pyStrip a.text = "" := by
    unfold pyStrip
    rw [stripChars_of_all_space a.text.data h]
  rw [if_pos (Or.inr hstrip)]

theorem C7_witness :
    enqueue demoResolve { text := " \t  " } demoQM = (false, demoQM) :=
  C7_reject_blank_text demoResolve { text := " \t  " } demoQM (by decide)

/-- C8: For every dequeued item that is not dedup-skipped and whose
synthesis call raises, the worker iteration logs the error and ends with
the state unchanged: the item is dropped (not played, never requeued),
the last spoken key and the queue are untouched, and the iteration
returns normally (the `except` clause catches the error), so the loop
proceeds to the next item. -/
theorem C8_synth_failure (synth : SpeakItem → Option (List Int × Nat × Nat))
    (flag : Bool) (item : SpeakItem) (s : QMState)
    (hnoskip : ¬(item.no_dedup = false ∧ s.dedupEnabled = true ∧
                 s.lastSpokenKey = some (dedup_key item)))
    (hfail : synth item = none) :
    workerIter synth flag item s = (s, [WEvent.synthCalled item, WEvent.errorLogged]) ∧
    (workerIter synth flag item s).1.lastSpokenKey = s.lastSpokenKey ∧
    (workerIter synth flag item s).1.q = s.q ∧
    WEvent.played item ∉ (workerIter synth flag item s).2 := by
  have h : workerIter synth flag item s =
      (s, [WEvent.synthCalled item, WEvent.errorLogged]) := by
    simp [workerIter, if_neg hnoskip, hfail]
  exact ⟨h, by rw [h], by rw [h], by rw [h]; simp⟩

theorem C8_witness :
    workerIter demoSynthFail false demoItem demoQM =
      (demoQM, [WEvent.synthCalled demoItem, WEvent.errorLogged]) :=
  (C8_synth_failure demoSynthFail false demoItem demoQM (by decide) rfl).1

/-- C10: For every text argument that contains a non-whitespace character
(so it passes the empty/whitespace guard) but whose preprocessed form is
the empty string, enqueue returns false and the state is unchanged;
consequently every item that enters the queue carries exactly the
non-empty preprocessed form of its text. -/
theorem C10_reject_empty_preprocess (resolve : String → Int × VoiceParams)
    (a : EnqArgs) (s : QMState) (c : Char) (hc : c ∈ a.text.data)
    (hcs : isPySpace c = false) (hpp : preprocess a.text = "") :
    enqueue resolve a s = (false, s) ∧
    (∀ (b : EnqArgs) (t : QMState), (enqueue resolve b t).1 = true →
      (enqueue resolve b t).2.q = t.q ++ [mkSpeakItem resolve b] ∧
      (mkSpeakItem resolve b).text = preprocess b.text ∧
      (mkSpeakItem resolve b).text ≠ "") := by
  constructor
  · unfold enqueue
    have hstrip : pyStrip a.text ≠ "" := by
      intro he
      have : stripChars a.text.data = [] := by
        have := congrArg String.data he
        simpa [pyStrip] using this
      exact stripChars_ne_nil a.text.data c hc hcs this
    have htext : a.text ≠ "" := by
      intro he
      rw [he] at hc
      simp at hc
    rw [if_neg (by push_neg; exact ⟨htext, hstrip⟩), if_pos hpp]
  · intro b t hb
    unfold enqueue at hb ⊢
    split_ifs at hb ⊢ with h1 h2 h3
    · exact ⟨rfl, rfl, h2⟩

theorem C10_witness :
    enqueue demoResolve { text := "\\G" } demoQM = (false, demoQM) :=
  (C10_reject_empty_preprocess demoResolve { text := "\\G" } demoQM 'G'
    (by decide) (by decide) (by decide)).1
